import Mathlib

/-
Verification of the t-walk step method (pymc/sandbox/TWalk.py).

The sampler state, the four proposal kernels (walk, traverse, blow, hop),
the propose/step control flow, the per-kernel counters and the `n1`
property are embedded below.  Values of the target variable are finite
lists of reals (the flattened numpy array); randomness is passed in
explicitly (each uniform or normal draw of the source becomes an input),
and the unbounded support-retry loop is driven by the finite stream of
per-proposal random draws, so that an exhausted stream models the loop
still running.
-/

namespace TWalkModel

/-- Target-variable model.  Modelled from the spec: the stochastic
collaborator (pymc.PyMCObjects, not under src/) exposes a current value
and `revertToPrevious()`, which restores the value held before the most
recent `setValue`.  So the model keeps exactly one level of history. -/
structure Stoch where
  value : List ℝ
  lastValue : List ℝ

/-- `stochastic.value = v`: sets the value, remembering the previous one. -/
def setValue (s : Stoch) (v : List ℝ) : Stoch := ⟨v, s.value⟩

/-- Modelled from the spec: `revertToPrevious()` restores the value held
before the most recent `setValue` (single level of history). -/
def revert (s : Stoch) : Stoch := ⟨s.lastValue, s.lastValue⟩

/-- `np.cumsum` with running accumulator. -/
def cumsumFrom (acc : ℝ) : List ℝ → List ℝ
  | [] => []
  | w :: ws => (acc + w) :: cumsumFrom (acc + w) ws

/-- `np.cumsum(kernel_probs)` as computed in `__init__`. -/
def cumsum (ws : List ℝ) : List ℝ := cumsumFrom 0 ws

/-- `sum(self.cum_probs < random())`: the number of cumulative bounds
strictly below the uniform draw (propose, line 278). -/
noncomputable def kernelIndex (cumProbs : List ℝ) (u : ℝ) : ℕ :=
  cumProbs.countP (fun c => decide (c < u))

/-- `z = (theta / (1 + theta))*(theta*u**2 + 2*u - 1)` (walk, line 144). -/
noncomputable def walkZ (θ u : ℝ) : ℝ := (θ / (1 + θ)) * (θ * u ^ 2 + 2 * u - 1)

/-- `x = x + phi*(x - xp)*z` elementwise (walk, line 154). -/
noncomputable def walkMove (θ : ℝ) : List Bool → List ℝ → List ℝ → List ℝ → List ℝ
  | b :: phi, a :: x, c :: xp, d :: u =>
      (a + (if b then (1 : ℝ) else 0) * (a - c) * walkZ θ d) :: walkMove θ phi x xp u
  | _, _, _, _ => []

/-- The two-branch beta draw of the traverse kernel (lines 176-179); the
sampled branch consumes one further uniform variate. -/
noncomputable def traverseBeta (θ bu betau : ℝ) : ℝ :=
  if bu < (θ - 1) / (2 * θ) then Real.exp (1 / (θ + 1) * Real.log betau)
  else Real.exp (1 / (1 - θ) * Real.log betau)

/-- `x = (xp + beta*(xp - x))*phi + x*(phi==False)` elementwise (line 189). -/
noncomputable def traverseMove (β : ℝ) : List Bool → List ℝ → List ℝ → List ℝ
  | b :: phi, a :: x, c :: xp =>
      ((c + β * (c - a)) * (if b then (1 : ℝ) else 0)
        + a * (if b then (0 : ℝ) else 1)) :: traverseMove β phi x xp
  | _, _, _ => []

/-- `phi*abs(xp - x)` elementwise (lines 216, 252). -/
def maskedAbsDiff : List Bool → List ℝ → List ℝ → List ℝ
  | b :: phi, c :: xp, a :: x =>
      ((if b then (1 : ℝ) else 0) * |c - a|) :: maskedAbsDiff phi xp x
  | _, _, _ => []

/-- `max(...)` of a numpy array; all uses are on arrays of nonnegative
entries, so folding from 0 agrees with the numpy maximum. -/
def npMax (l : List ℝ) : ℝ := l.foldr max 0

/-- `x = x + phi*sigma*rnormal()` with a single scalar normal draw `r`
shared by every coordinate (blow, line 218). -/
noncomputable def blowMove (σ r : ℝ) : List Bool → List ℝ → List ℝ
  | b :: phi, a :: x => (a + (if b then (1 : ℝ) else 0) * σ * r) :: blowMove σ r phi x
  | _, _ => []

/-- `x = (xp + sigma*rnormal())*phi + x*(phi==False)` with a single scalar
normal draw `r` (hop, line 254). -/
noncomputable def hopMove (σ r : ℝ) : List Bool → List ℝ → List ℝ → List ℝ
  | b :: phi, a :: x, c :: xp =>
      ((c + σ * r) * (if b then (1 : ℝ) else 0)
        + a * (if b then (0 : ℝ) else 1)) :: hopMove σ r phi x xp
  | _, _, _ => []

/-- `(h - xp)**2` elementwise, as summed by `_g`. -/
def sqDiffs : List ℝ → List ℝ → List ℝ
  | a :: h, c :: xp => (a - c) ^ 2 :: sqDiffs h xp
  | _, _ => []

/-- `_g(h, xp, s)` (lines 227-232): note the quadratic sum runs over all
coordinates of `h - xp`, while `nphi = sum(self.phi)` counts the mask. -/
noncomputable def gfun (phi : List Bool) (h xp : List ℝ) (s : ℝ) : ℝ :=
  ((phi.countP (fun b => b) : ℕ) : ℝ) / 2 * Real.log (2 * Real.pi)
    + ((phi.countP (fun b => b) : ℕ) : ℝ) * Real.log s
    + 0.5 * (sqDiffs h xp).sum / s ^ 2

/-- `self._g(x, xp, sigma) - self._g(self.stochastic.value, xp, sigma)`
as assigned to `hastings_factor` by blow (line 223) and hop (line 259);
`sv` is `self.stochastic.value` at that moment. -/
noncomputable def blowHastings (phi : List Bool) (xn sv xp : List ℝ) (σ : ℝ) : ℝ :=
  gfun phi xn xp σ - gfun phi sv xp σ

/-- `(h - xp)**2` restricted to masked coordinates. -/
def maskedSqDiffs : List Bool → List ℝ → List ℝ → List ℝ
  | b :: phi, a :: h, c :: xp =>
      (if b then (a - c) ^ 2 else 0) :: maskedSqDiffs phi h xp
  | _, _, _ => []

/-- Modelled from the spec: `g(h, xp, s) = (k/2)*log(2*pi) + k*log(s) +
0.5*sum((h - xp)^2)/s^2` with the sum over the masked coordinates only
and `k` the number of masked coordinates. -/
noncomputable def gSpec (phi : List Bool) (h xp : List ℝ) (s : ℝ) : ℝ :=
  ((phi.countP (fun b => b) : ℕ) : ℝ) / 2 * Real.log (2 * Real.pi)
    + ((phi.countP (fun b => b) : ℕ) : ℝ) * Real.log s
    + 0.5 * (maskedSqDiffs phi h xp).sum / s ^ 2

/-- Modelled from the spec: the blow update with one standard-normal draw
per coordinate (vectorized), `x <- x + phi * sigma * N(0,1)` with the
draws `rs` aligned with the coordinates. -/
noncomputable def blowSpecMove (σ : ℝ) : List Bool → List ℝ → List ℝ → List ℝ
  | b :: phi, a :: x, r :: rs =>
      (a + (if b then (1 : ℝ) else 0) * σ * r) :: blowSpecMove σ phi x rs
  | _, _, _ => []

/-- The random draws consumed by one `propose()` call: the kernel-choice
uniform, the per-coordinate mask uniforms, and the kernel-specific draws
(walk's uniforms, traverse's branch and beta uniforms, the scalar normal
stream used by blow/hop). -/
structure PRand where
  kernelDraw : ℝ
  phiDraws : List ℝ
  walkU : List ℝ
  travBranchU : ℝ
  travBetaU : ℝ
  normalDraws : List ℝ

/-- Sampler fields written by one `propose()` call: the mutated stochastic,
`current_kernel`, `phi` and `hastings_factor`. -/
structure PState where
  stoch : Stoch
  kernel : ℕ
  phi : List Bool
  hastings : ℝ

/-- Per-sampler configuration fixed at construction: `cum_probs`,
`walk_theta`, `traverse_theta`, `p`, `_support` and the model's
log-probability.  `logp v = none` models a `ZeroProbability` exception
raised by `logp_plus_loglike` when the stochastic holds value `v`. -/
structure Config where
  cumProbs : List ℝ
  walkTheta : ℝ
  traverseTheta : ℝ
  p : ℝ
  support : List ℝ → Bool
  logp : List ℝ → Option ℝ

/-- One `propose()` call (lines 274-285): select the kernel by counting
cumulative bounds below the draw, draw the mask `phi` coordinatewise with
probability `p`, and run the selected kernel, which sets the stochastic's
value and the hastings factor.  `none` models the `IndexError` raised by
`self.kernels[k]` when the computed index is 4 (all bounds below the
draw).  `v0`, `v1` are `self.values`; when `prime` the point being
updated is `v1` and the reference is `v0`. -/
noncomputable def proposeStep (cfg : Config) (v0 v1 : List ℝ) (prime : Bool)
    (st : Stoch) (r : PRand) : Option PState :=
  let k := kernelIndex cfg.cumProbs r.kernelDraw
  let phi := r.phiDraws.map (fun u => decide (u < cfg.p))
  let x := if prime then v1 else v0
  let xp := if prime then v0 else v1
  if k = 0 then
    some ⟨setValue st (walkMove cfg.walkTheta phi x xp r.walkU), 0, phi, 0⟩
  else if k = 1 then
    some ⟨setValue st (traverseMove (traverseBeta cfg.traverseTheta r.travBranchU r.travBetaU) phi x xp), 1, phi,
      (((phi.countP (fun b => b) : ℕ) : ℝ) - 2)
        * Real.log (traverseBeta cfg.traverseTheta r.travBranchU r.travBetaU)⟩
  else if k = 2 then
    some ⟨setValue st (blowMove (npMax (maskedAbsDiff phi xp x)) r.normalDraws.headI phi x), 2, phi,
      blowHastings phi (blowMove (npMax (maskedAbsDiff phi xp x)) r.normalDraws.headI phi x)
        st.value xp (npMax (maskedAbsDiff phi xp x))⟩
  else if k = 3 then
    some ⟨setValue st (hopMove (npMax (maskedAbsDiff phi xp x) / 3) r.normalDraws.headI phi x xp), 3, phi,
      blowHastings phi (hopMove (npMax (maskedAbsDiff phi xp x) / 3) r.normalDraws.headI phi x xp)
        st.value xp (npMax (maskedAbsDiff phi xp x) / 3)⟩
  else none

/-- Outcome of the support-retry loop (step, lines 311-316): a proposal
satisfying `_support` was found, the kernel lookup raised (`fatal`), or
the supplied stream of proposal draws ran out (`noFuel`, modelling the
loop still running: the source has no retry bound). -/
inductive LoopResult where
  | found (ps : PState)
  | fatal
  | noFuel

/-- `while not valid_proposal: self.propose(); valid_proposal =
self._support(self.stochastic.value)`.  Each iteration consumes one
`PRand`; `self.values` and the pivot are unchanged across retries, while
the stochastic carries over from proposal to proposal. -/
noncomputable def proposeLoop (cfg : Config) (v0 v1 : List ℝ) (prime : Bool) :
    Stoch → List PRand → LoopResult
  | _, [] => .noFuel
  | st, r :: rest =>
    match proposeStep cfg v0 v1 prime st r with
    | none => .fatal
    | some ps =>
      if cfg.support ps.stoch.value then .found ps
      else proposeLoop cfg v0 v1 prime ps.stoch rest

/-- Whether the loop returned normally. -/
def LoopResult.isFound : LoopResult → Bool
  | .found _ => true
  | _ => false

/-- Full sampler state across a step: `self.values[0]`, `self.values[1]`,
the stochastic, `_prime`, `current_kernel`, `phi`, `hastings_factor` and
the `accepted`/`rejected` counter arrays (indexed by kernel). -/
structure SState where
  values0 : List ℝ
  values1 : List ℝ
  stoch : Stoch
  prime : Bool
  currentKernel : ℕ
  phi : List Bool
  hastingsFactor : ℝ
  accepted : ℕ → ℕ
  rejected : ℕ → ℕ

/-- `counts[k] += 1`. -/
def bump (c : ℕ → ℕ) (k : ℕ) : ℕ → ℕ := fun i => if i = k then c i + 1 else c i

/-- The random draws consumed directly by `step()`: the pivot-choice
uniform, the stream feeding the retry loop, and the acceptance uniform. -/
structure StepRand where
  pivotDraw : ℝ
  proposals : List PRand
  acceptDraw : ℝ

/-- `self._prime = (random() < 0.5)` (line 294). -/
noncomputable def stepPrime (r : StepRand) : Bool := decide (r.pivotDraw < 0.5)

/-- The stochastic after the pivot choice: when `_prime`, step 1 sets the
stochastic's value to the auxiliary point `values[1]` (line 301). -/
def pivotStoch (prime : Bool) (s : SState) : Stoch :=
  if prime then setValue s.stoch s.values1 else s.stoch

/-- The common tail of `step()` (lines 333-347 and 364-375): on reject the
stochastic is reverted and `rejected[current_kernel]` bumped (lines
264-272), on accept `accepted[current_kernel]` is bumped; then the point
that was active is updated from the stochastic, and when `_prime` the
stochastic's visible value is set back to the primary point
`values[0]`. -/
noncomputable def finishStep (s : SState) (prime : Bool) (ps : PState)
    (accept : Bool) : SState :=
  let st2 := if accept then ps.stoch else revert ps.stoch
  let acc := if accept then bump s.accepted ps.kernel else s.accepted
  let rej := if accept then s.rejected else bump s.rejected ps.kernel
  if prime then
    ⟨s.values0, st2.value, setValue st2 s.values0, prime, ps.kernel, ps.phi,
      ps.hastings, acc, rej⟩
  else
    ⟨st2.value, s.values1, st2, prime, ps.kernel, ps.phi, ps.hastings, acc, rej⟩

/-- Result of one `step()` call: normal return, an escaped
`ZeroProbability` from the pre-proposal log-probability evaluation (line
307, outside the `try`), an escaped `IndexError` from the kernel lookup,
or the retry loop still running when the proposal stream is exhausted. -/
inductive StepResult where
  | ok (s : SState)
  | errZeroProb
  | errIndex
  | diverge

/-- `step()` (lines 288-375): choose the pivot, evaluate the current
log-probability (unguarded), run the support-retry loop, treat an empty
mask as `ZeroProbability` (line 318), evaluate the proposed
log-probability (a `ZeroProbability` there is caught and rejects), and
apply the Metropolis-Hastings test `log(random()) > logp_p - logp +
hastings_factor` (line 353). -/
noncomputable def step (cfg : Config) (r : StepRand) (s : SState) : StepResult :=
  match cfg.logp (pivotStoch (stepPrime r) s).value with
  | none => .errZeroProb
  | some logp0 =>
    match proposeLoop cfg s.values0 s.values1 (stepPrime r)
        (pivotStoch (stepPrime r) s) r.proposals with
    | .fatal => .errIndex
    | .noFuel => .diverge
    | .found ps =>
      if ps.phi.countP (fun b => b) = 0 then
        .ok (finishStep s (stepPrime r) ps false)
      else
        match cfg.logp ps.stoch.value with
        | none => .ok (finishStep s (stepPrime r) ps false)
        | some logp1 =>
          if Real.log r.acceptDraw > logp1 - logp0 + ps.hastings then
            .ok (finishStep s (stepPrime r) ps false)
          else
            .ok (finishStep s (stepPrime r) ps true)

/-- The methods defined on the `TWalk` class body besides `__init__` and
the `n1` property itself; `_calc_p` is not among them, and the spec's
description of the external step-method framework gives it no such
method either. -/
def twalkMethods : List String :=
  ["competence", "walk", "traverse", "blow", "hop", "_g", "reject",
    "propose", "step"]

/-- The slice of instance state relevant to the `n1` property: the
backing attribute `_n1` (absent when never assigned) and `p`. -/
structure TWalkAttrs where
  n1Backing : Option ℝ
  p : ℝ

/-- `__init__` (lines 53-109): sets `p = 1.*min(self._len, n1)/self._len`
from the `n1` argument and never assigns `self._n1`.  Modelled from the
spec for the base-class part: `StepMethod.__init__` is not under src/,
and §4.1 lists everything construction initializes - no `_n1`. -/
noncomputable def twalkInit (len n1 : ℕ) : TWalkAttrs :=
  ⟨none, ((min len n1 : ℕ) : ℝ) / (len : ℝ)⟩

/-- The `n1` property getter (lines 113-114): returns `self._n1`, raising
`AttributeError` when the backing attribute was never assigned. -/
def n1Get (a : TWalkAttrs) : Except String ℝ :=
  match a.n1Backing with
  | none => .error "AttributeError: _n1"
  | some v => .ok v

/-- The `n1` property setter (lines 115-117): assigns `self._n1 = value`
and then calls `self._calc_p()`; the method lookup raises
`AttributeError` when `_calc_p` is not defined on the class.  The pair
returned is the instance state after the call together with its
outcome - the assignment to `_n1` has already happened when the lookup
fails, and `p` is untouched either way. -/
def n1Set (a : TWalkAttrs) (v : ℝ) : TWalkAttrs × Except String Unit :=
  if "_calc_p" ∈ twalkMethods then (⟨some v, a.p⟩, .ok ())
  else (⟨some v, a.p⟩, .error "AttributeError: _calc_p")

/-! Concrete one-dimensional instances used to exercise `step`.  All use
kernel weights `[1, 0, 0, 0]` (walk always selected), `walk_theta = 3`
and `p = 1`, with `values = [[1], [0]]` and a pivot draw of 1 (so the
primary point is the one updated). -/

/-- Support predicate refusing exactly the point `[1/4]`. -/
noncomputable def cexSupport : List ℝ → Bool :=
  fun v => if v = [(1 : ℝ) / 4] then false else true

/-- Log-probability: -10 at the point `[4]`, 0 elsewhere. -/
noncomputable def cexLogp : List ℝ → Option ℝ :=
  fun v => if v = [(4 : ℝ)] then some (-10) else some 0

/-- Configuration whose support refuses `[1/4]`. -/
noncomputable def cexCfg : Config :=
  ⟨cumsum [1, 0, 0, 0], 3, 6, 1, cexSupport, cexLogp⟩

/-- Configuration with full support. -/
noncomputable def cfgT : Config :=
  ⟨cumsum [1, 0, 0, 0], 3, 6, 1, fun _ => true, cexLogp⟩

/-- Configuration with full support whose log-probability raises
`ZeroProbability` exactly at the proposed point `[4]`. -/
noncomputable def cfgPropNone : Config :=
  ⟨cumsum [1, 0, 0, 0], 3, 6, 1, fun _ => true,
    fun v => if v = [(4 : ℝ)] then none else some 0⟩

/-- Configuration whose log-probability always raises `ZeroProbability`. -/
noncomputable def cfgNone : Config :=
  ⟨cumsum [1, 0, 0, 0], 3, 6, 1, fun _ => true, fun _ => none⟩

/-- Configuration whose support refuses every point. -/
noncomputable def cfgF : Config :=
  ⟨cumsum [1, 0, 0, 0], 3, 6, 1, fun _ => false, fun _ => some 0⟩

/-- Walk proposal moving `[1]` to `[1/4]` (walk uniform 0). -/
noncomputable def pr0 : PRand := ⟨1 / 2, [1 / 2], [0], 0, 1 / 2, [1]⟩

/-- Walk proposal moving `[1]` to `[4]` (walk uniform 1). -/
noncomputable def pr1 : PRand := ⟨1 / 2, [1 / 2], [1], 0, 1 / 2, [1]⟩

/-- Walk proposal leaving `[1]` in place (walk uniform 1/3, a root of
`theta*u^2 + 2*u - 1` for `theta = 3`). -/
noncomputable def prStay : PRand := ⟨1 / 2, [1 / 2], [1 / 3], 0, 1 / 2, [1]⟩

/-- Walk proposal whose mask draw 2 exceeds `p = 1`: `phi = [false]`,
so the point is left at `[1]`. -/
noncomputable def prNoMask : PRand := ⟨1 / 2, [2], [0], 0, 1 / 2, [1]⟩

/-- Sampler state before the step: primary `[1]`, auxiliary `[0]`, the
stochastic holding the primary value, all counters zero. -/
noncomputable def state1 : SState :=
  ⟨[1], [0], ⟨[1], [1]⟩, false, 0, [], 0, fun _ => 0, fun _ => 0⟩

/-- Step draws for the C1 failing input: first proposal `[1/4]` is
refused by the support, the retry proposes `[4]`, and the acceptance
draw 1/2 fails the test against `logp_p - logp = -10`. -/
noncomputable def rand1 : StepRand := ⟨1, [pr0, pr1], 1 / 2⟩

/-- Step draws for the C7 failing input: first proposal `[1/4]` is
refused by the support, the retry draws an all-false mask. -/
noncomputable def rand7 : StepRand := ⟨1, [pr0, prNoMask], 1 / 2⟩

/-- Step draws for an accepted single-proposal step. -/
noncomputable def randAcc : StepRand := ⟨1, [prStay], 1 / 2⟩

/-- Step draws for a rejected single-proposal step (proposal `[4]`). -/
noncomputable def randRej : StepRand := ⟨1, [pr1], 1 / 2⟩

/-- Proposal state after the C1 retry: the stochastic holds `[4]` with
previous value `[1/4]` (the refused first proposal). -/
noncomputable def ps1 : PState := ⟨⟨[4], [1 / 4]⟩, 0, [true], 0⟩

/-- Proposal state after the C7 retry: the stochastic holds `[1]` with
previous value `[1/4]`, and the mask is empty. -/
noncomputable def ps7 : PState := ⟨⟨[1], [1 / 4]⟩, 0, [false], 0⟩

/-- Proposal state of the in-place single proposal. -/
noncomputable def psStay : PState := ⟨⟨[1], [1]⟩, 0, [true], 0⟩

/-- Proposal state of the single proposal to `[4]`. -/
noncomputable def psRej : PState := ⟨⟨[4], [1]⟩, 0, [true], 0⟩

/-- Final state of the C1 failing input: the rejected step committed the
support-refused value `[1/4]` into the primary point. -/
noncomputable def final1 : SState :=
  ⟨[1 / 4], [0], ⟨[1 / 4], [1 / 4]⟩, false, 0, [true], 0, fun _ => 0,
    bump (fun _ => 0) 0⟩

/-- Final state of the C7 failing input: the zero-mask rejection
committed the support-refused value `[1/4]` into the primary point. -/
noncomputable def final7 : SState :=
  ⟨[1 / 4], [0], ⟨[1 / 4], [1 / 4]⟩, false, 0, [false], 0, fun _ => 0,
    bump (fun _ => 0) 0⟩

/-- Final state of the accepted single-proposal step. -/
noncomputable def finalAcc : SState :=
  ⟨[1], [0], ⟨[1], [1]⟩, false, 0, [true], 0, bump (fun _ => 0) 0,
    fun _ => 0⟩

/-- Final state of the rejected single-proposal step: reverted to `[1]`. -/
noncomputable def finalRej : SState :=
  ⟨[1], [0], ⟨[1], [1]⟩, false, 0, [true], 0, fun _ => 0,
    bump (fun _ => 0) 0⟩

/-! A two-dimensional retry scenario reaching a blow proposal whose
`self.stochastic.value` is the previous support-refused proposal, not the
active point: weights select walk for the first draw and blow for the
retry, `p = 1/2`, `values = [[2, 0], [1, 1]]`, non-prime pivot. -/

/-- Kernel weights `[1/2, 0, 1/2, 0]`, `walk_theta = 3`, `p = 1/2`,
support refusing exactly `[5, 0]`. -/
noncomputable def cfg4 : Config :=
  ⟨cumsum [1 / 2, 0, 1 / 2, 0], 3, 6, 1 / 2,
    fun v => if v = [(5 : ℝ), 0] then false else true, fun _ => some 0⟩

/-- Walk proposal (kernel draw 1/4) with mask draws `[0, 1]` (mask
`[true, false]`) and walk uniform 1 on the masked coordinate: moves
`[2, 0]` to `[5, 0]`. -/
noncomputable def prW : PRand := ⟨1 / 4, [0, 1], [1, 0], 0, 1 / 2, [1]⟩

/-- Blow proposal (kernel draw 3/4) with mask draws `[1, 0]` (mask
`[false, true]`) and scalar normal draw 1. -/
noncomputable def prB : PRand := ⟨3 / 4, [1, 0], [0, 0], 0, 1 / 2, [1]⟩

/-- Proposal state after the blow retry: the stochastic holds `[2, 1]`
with previous value `[5, 0]` (the refused walk proposal), and the
hastings factor was computed against that stale `[5, 0]`. -/
noncomputable def ps4 : PState :=
  ⟨⟨[2, 1], [5, 0]⟩, 2, [false, true],
    blowHastings [false, true] [2, 1] [5, 0] [1, 1] 1⟩

/-! Evaluation lemmas for the concrete instances. -/

lemma stepPrime_one (P : List PRand) (a : ℝ) : stepPrime ⟨1, P, a⟩ = false := by
  simp only [stepPrime, decide_eq_false_iff_not]
  norm_num

lemma kernelIndex_walk : kernelIndex (cumsum [1, 0, 0, 0]) (1 / 2) = 0 := by
  simp only [kernelIndex, cumsum, cumsumFrom, List.countP_cons, List.countP_nil,
    decide_eq_true_eq]
  norm_num

lemma phi_true : ([(1 : ℝ) / 2]).map (fun u => decide (u < (1 : ℝ))) = [true] := by
  simp only [List.map, decide_eq_true_eq]
  norm_num

lemma phi_false : ([(2 : ℝ)]).map (fun u => decide (u < (1 : ℝ))) = [false] := by
  simp only [List.map]
  norm_num

lemma walkZ_zero : walkZ 3 0 = -(3 / 4) := by
  simp only [walkZ]; norm_num

lemma walkZ_one : walkZ 3 1 = 3 := by
  simp only [walkZ]; norm_num

lemma walkZ_third : walkZ 3 (1 / 3) = 0 := by
  simp only [walkZ]; norm_num

lemma walk_move_quarter : walkMove 3 [true] [1] [0] [0] = [1 / 4] := by
  simp only [walkMove, walkZ]; norm_num

lemma walk_move_four : walkMove 3 [true] [1] [0] [1] = [4] := by
  simp only [walkMove, walkZ]; norm_num

lemma walk_move_stay : walkMove 3 [true] [1] [0] [1 / 3] = [1] := by
  simp only [walkMove, walkZ]; norm_num

lemma walk_move_nomask : walkMove 3 [false] [1] [0] [0] = [1] := by
  simp only [walkMove, walkZ]; norm_num

lemma sup_quarter : cexSupport [(1 : ℝ) / 4] = false := by
  simp [cexSupport]

lemma sup_four : cexSupport [(4 : ℝ)] = true := by
  simp only [cexSupport]
  rw [if_neg]
  intro h
  simp only [List.cons.injEq, and_true] at h
  norm_num at h

lemma sup_one : cexSupport [(1 : ℝ)] = true := by
  simp only [cexSupport]
  rw [if_neg]
  intro h
  simp only [List.cons.injEq, and_true] at h
  norm_num at h

lemma logp_one : cexLogp [(1 : ℝ)] = some 0 := by
  simp only [cexLogp]
  rw [if_neg]
  intro h
  simp only [List.cons.injEq, and_true] at h
  norm_num at h

lemma logp_four : cexLogp [(4 : ℝ)] = some (-10) := by
  simp [cexLogp]

lemma log_half_neg : Real.log ((1 : ℝ) / 2) < 0 :=
  Real.log_neg (by norm_num) (by norm_num)

lemma log_half_gt : Real.log ((1 : ℝ) / 2) > -10 := by
  have h2 : Real.log 2 ≤ 1 := by
    have h := Real.log_le_sub_one_of_pos (show (0 : ℝ) < 2 by norm_num)
    linarith
  have hv : Real.log ((1 : ℝ) / 2) = -Real.log 2 := by
    rw [one_div, Real.log_inv]
  linarith

lemma proposeStep_pr0 :
    proposeStep cexCfg [1] [0] false ⟨[1], [1]⟩ pr0 =
      some ⟨⟨[1 / 4], [1]⟩, 0, [true], 0⟩ := by
  simp only [proposeStep, cexCfg, pr0]
  simp only [Bool.false_eq_true, if_false]
  rw [kernelIndex_walk, phi_true, walk_move_quarter]
  simp [setValue]

lemma proposeStep_pr1 (st : Stoch) :
    proposeStep cexCfg [1] [0] false st pr1 =
      some ⟨setValue st [4], 0, [true], 0⟩ := by
  simp only [proposeStep, cexCfg, pr1]
  simp only [Bool.false_eq_true, if_false]
  rw [kernelIndex_walk, phi_true, walk_move_four]
  simp

lemma proposeStep_prNoMask (st : Stoch) :
    proposeStep cexCfg [1] [0] false st prNoMask =
      some ⟨setValue st [1], 0, [false], 0⟩ := by
  simp only [proposeStep, cexCfg, prNoMask]
  simp only [Bool.false_eq_true, if_false]
  rw [kernelIndex_walk, phi_false, walk_move_nomask]
  simp

lemma loop_rand1 :
    proposeLoop cexCfg [1] [0] false ⟨[1], [1]⟩ [pr0, pr1] = .found ps1 := by
  simp only [proposeLoop, proposeStep_pr0, proposeStep_pr1, proposeStep_prNoMask, setValue]
  simp only [cexCfg]
  rw [sup_quarter]
  simp only [Bool.false_eq_true, if_false]
  simp only [sup_four]
  simp [ps1]

lemma loop_rand7 :
    proposeLoop cexCfg [1] [0] false ⟨[1], [1]⟩ [pr0, prNoMask] = .found ps7 := by
  simp only [proposeLoop, proposeStep_pr0, proposeStep_pr1, proposeStep_prNoMask, setValue]
  simp only [cexCfg]
  rw [sup_quarter]
  simp only [Bool.false_eq_true, if_false]
  simp only [sup_one]
  simp [ps7]

lemma step_eval (cfg : Config) (r : StepRand) (s : SState) (ps : PState) (L0 : ℝ)
    (hL : cfg.logp (pivotStoch (stepPrime r) s).value = some L0)
    (hloop : proposeLoop cfg s.values0 s.values1 (stepPrime r)
      (pivotStoch (stepPrime r) s) r.proposals = .found ps) :
    step cfg r s =
      if ps.phi.countP (fun b => b) = 0 then .ok (finishStep s (stepPrime r) ps false)
      else
        match cfg.logp ps.stoch.value with
        | none => .ok (finishStep s (stepPrime r) ps false)
        | some logp1 =>
          if Real.log r.acceptDraw > logp1 - L0 + ps.hastings then
            .ok (finishStep s (stepPrime r) ps false)
          else .ok (finishStep s (stepPrime r) ps true) := by
  unfold step
  rw [hL, hloop]

lemma step_reject_zeromask (cfg : Config) (r : StepRand) (s : SState) (ps : PState)
    (L0 : ℝ)
    (hL : cfg.logp (pivotStoch (stepPrime r) s).value = some L0)
    (hloop : proposeLoop cfg s.values0 s.values1 (stepPrime r)
      (pivotStoch (stepPrime r) s) r.proposals = .found ps)
    (hphi : ps.phi.countP (fun b => b) = 0) :
    step cfg r s = .ok (finishStep s (stepPrime r) ps false) := by
  rw [step_eval cfg r s ps L0 hL hloop, if_pos hphi]

lemma step_reject_propnone (cfg : Config) (r : StepRand) (s : SState) (ps : PState)
    (L0 : ℝ)
    (hL : cfg.logp (pivotStoch (stepPrime r) s).value = some L0)
    (hloop : proposeLoop cfg s.values0 s.values1 (stepPrime r)
      (pivotStoch (stepPrime r) s) r.proposals = .found ps)
    (hphi : ¬ps.phi.countP (fun b => b) = 0)
    (hnone : cfg.logp ps.stoch.value = none) :
    step cfg r s = .ok (finishStep s (stepPrime r) ps false) := by
  rw [step_eval cfg r s ps L0 hL hloop, if_neg hphi, hnone]

lemma step_reject_test (cfg : Config) (r : StepRand) (s : SState) (ps : PState)
    (L0 L1 : ℝ)
    (hL : cfg.logp (pivotStoch (stepPrime r) s).value = some L0)
    (hloop : proposeLoop cfg s.values0 s.values1 (stepPrime r)
      (pivotStoch (stepPrime r) s) r.proposals = .found ps)
    (hphi : ¬ps.phi.countP (fun b => b) = 0)
    (hsome : cfg.logp ps.stoch.value = some L1)
    (htest : Real.log r.acceptDraw > L1 - L0 + ps.hastings) :
    step cfg r s = .ok (finishStep s (stepPrime r) ps false) := by
  rw [step_eval cfg r s ps L0 hL hloop, if_neg hphi, hsome]
  simp only [if_pos htest]

lemma step_accept (cfg : Config) (r : StepRand) (s : SState) (ps : PState)
    (L0 L1 : ℝ)
    (hL : cfg.logp (pivotStoch (stepPrime r) s).value = some L0)
    (hloop : proposeLoop cfg s.values0 s.values1 (stepPrime r)
      (pivotStoch (stepPrime r) s) r.proposals = .found ps)
    (hphi : ¬ps.phi.countP (fun b => b) = 0)
    (hsome : cfg.logp ps.stoch.value = some L1)
    (htest : ¬Real.log r.acceptDraw > L1 - L0 + ps.hastings) :
    step cfg r s = .ok (finishStep s (stepPrime r) ps true) := by
  rw [step_eval cfg r s ps L0 hL hloop, if_neg hphi, hsome]
  simp only [if_neg htest]

lemma finishStep_stoch_value (s : SState) (prime : Bool) (ps : PState) (a : Bool) :
    (finishStep s prime ps a).stoch.value = (finishStep s prime ps a).values0 := by
  cases prime <;> cases a <;> simp [finishStep, setValue, revert]

lemma finishStep_currentKernel (s : SState) (prime : Bool) (ps : PState) (a : Bool) :
    (finishStep s prime ps a).currentKernel = ps.kernel := by
  cases prime <;> simp [finishStep]

lemma finishStep_accepted_true (s : SState) (prime : Bool) (ps : PState) :
    (finishStep s prime ps true).accepted = bump s.accepted ps.kernel := by
  cases prime <;> simp [finishStep]

lemma finishStep_rejected_true (s : SState) (prime : Bool) (ps : PState) :
    (finishStep s prime ps true).rejected = s.rejected := by
  cases prime <;> simp [finishStep]

lemma finishStep_accepted_false (s : SState) (prime : Bool) (ps : PState) :
    (finishStep s prime ps false).accepted = s.accepted := by
  cases prime <;> simp [finishStep]

lemma finishStep_rejected_false (s : SState) (prime : Bool) (ps : PState) :
    (finishStep s prime ps false).rejected = bump s.rejected ps.kernel := by
  cases prime <;> simp [finishStep]

lemma step_ok_shape (cfg : Config) (r : StepRand) (s : SState) (s' : SState)
    (h : step cfg r s = .ok s') :
    ∃ ps a, s' = finishStep s (stepPrime r) ps a := by
  unfold step at h
  repeat' split at h
  all_goals cases h
  all_goals exact ⟨_, _, rfl⟩

lemma stepPrime_rand1 : stepPrime rand1 = false := by
  simp only [rand1]; exact stepPrime_one _ _

lemma stepPrime_rand7 : stepPrime rand7 = false := by
  simp only [rand7]; exact stepPrime_one _ _

lemma stepPrime_randAcc : stepPrime randAcc = false := by
  simp only [randAcc]; exact stepPrime_one _ _

lemma stepPrime_randRej : stepPrime randRej = false := by
  simp only [randRej]; exact stepPrime_one _ _

lemma step_rand1_eval : step cexCfg rand1 state1 = .ok final1 := by
  have hL : cexCfg.logp (pivotStoch (stepPrime rand1) state1).value = some 0 := by
    rw [stepPrime_rand1]
    simp only [pivotStoch, Bool.false_eq_true, if_false, state1, cexCfg]
    exact logp_one
  have hloop : proposeLoop cexCfg state1.values0 state1.values1 (stepPrime rand1)
      (pivotStoch (stepPrime rand1) state1) rand1.proposals = .found ps1 := by
    rw [stepPrime_rand1]
    simp only [pivotStoch, Bool.false_eq_true, if_false, state1, rand1]
    exact loop_rand1
  have hphi : ¬ps1.phi.countP (fun b => b) = 0 := by simp [ps1]
  have hsome : cexCfg.logp ps1.stoch.value = some (-10) := by
    simp only [cexCfg, ps1]
    exact logp_four
  have htest : Real.log rand1.acceptDraw > -10 - 0 + ps1.hastings := by
    simp only [rand1, ps1]
    have := log_half_gt
    linarith
  rw [step_reject_test cexCfg rand1 state1 ps1 0 (-10) hL hloop hphi hsome htest,
    stepPrime_rand1]
  simp [finishStep, revert, state1, ps1, final1]

lemma step_rand7_eval : step cexCfg rand7 state1 = .ok final7 := by
  have hL : cexCfg.logp (pivotStoch (stepPrime rand7) state1).value = some 0 := by
    rw [stepPrime_rand7]
    simp only [pivotStoch, Bool.false_eq_true, if_false, state1, cexCfg]
    exact logp_one
  have hloop : proposeLoop cexCfg state1.values0 state1.values1 (stepPrime rand7)
      (pivotStoch (stepPrime rand7) state1) rand7.proposals = .found ps7 := by
    rw [stepPrime_rand7]
    simp only [pivotStoch, Bool.false_eq_true, if_false, state1, rand7]
    exact loop_rand7
  have hphi : ps7.phi.countP (fun b => b) = 0 := by simp [ps7]
  rw [step_reject_zeromask cexCfg rand7 state1 ps7 0 hL hloop hphi, stepPrime_rand7]
  simp [finishStep, revert, state1, ps7, final7]

lemma proposeStep_prStay_T :
    proposeStep cfgT [1] [0] false ⟨[1], [1]⟩ prStay =
      some ⟨⟨[1], [1]⟩, 0, [true], 0⟩ := by
  simp only [proposeStep, cfgT, prStay]
  simp only [Bool.false_eq_true, if_false]
  rw [kernelIndex_walk, phi_true, walk_move_stay]
  simp [setValue]

lemma proposeStep_pr1_T (st : Stoch) :
    proposeStep cfgT [1] [0] false st pr1 =
      some ⟨setValue st [4], 0, [true], 0⟩ := by
  simp only [proposeStep, cfgT, pr1]
  simp only [Bool.false_eq_true, if_false]
  rw [kernelIndex_walk, phi_true, walk_move_four]
  simp

lemma proposeStep_pr1_PN (st : Stoch) :
    proposeStep cfgPropNone [1] [0] false st pr1 =
      some ⟨setValue st [4], 0, [true], 0⟩ := by
  simp only [proposeStep, cfgPropNone, pr1]
  simp only [Bool.false_eq_true, if_false]
  rw [kernelIndex_walk, phi_true, walk_move_four]
  simp

lemma loop_stay_T :
    proposeLoop cfgT [1] [0] false ⟨[1], [1]⟩ [prStay] = .found psStay := by
  simp only [proposeLoop, proposeStep_prStay_T]
  simp [cfgT, psStay]

lemma loop_rej_T :
    proposeLoop cfgT [1] [0] false ⟨[1], [1]⟩ [pr1] = .found psRej := by
  simp only [proposeLoop, proposeStep_pr1_T, setValue]
  simp [cfgT, psRej]

lemma loop_rej_PN :
    proposeLoop cfgPropNone [1] [0] false ⟨[1], [1]⟩ [pr1] = .found psRej := by
  simp only [proposeLoop, proposeStep_pr1_PN, setValue]
  simp [cfgPropNone, psRej]

lemma step_acc_eval : step cfgT randAcc state1 = .ok finalAcc := by
  have hL : cfgT.logp (pivotStoch (stepPrime randAcc) state1).value = some 0 := by
    rw [stepPrime_randAcc]
    simp only [pivotStoch, Bool.false_eq_true, if_false, state1, cfgT]
    exact logp_one
  have hloop : proposeLoop cfgT state1.values0 state1.values1 (stepPrime randAcc)
      (pivotStoch (stepPrime randAcc) state1) randAcc.proposals = .found psStay := by
    rw [stepPrime_randAcc]
    simp only [pivotStoch, Bool.false_eq_true, if_false, state1, randAcc]
    exact loop_stay_T
  have hphi : ¬psStay.phi.countP (fun b => b) = 0 := by simp [psStay]
  have hsome : cfgT.logp psStay.stoch.value = some 0 := by
    simp only [cfgT, psStay]
    exact logp_one
  have htest : ¬Real.log randAcc.acceptDraw > 0 - 0 + psStay.hastings := by
    simp only [randAcc, psStay]
    have := log_half_neg
    intro hgt
    linarith
  rw [step_accept cfgT randAcc state1 psStay 0 0 hL hloop hphi hsome htest,
    stepPrime_randAcc]
  simp [finishStep, state1, psStay, finalAcc]

lemma step_rej_eval : step cfgT randRej state1 = .ok finalRej := by
  have hL : cfgT.logp (pivotStoch (stepPrime randRej) state1).value = some 0 := by
    rw [stepPrime_randRej]
    simp only [pivotStoch, Bool.false_eq_true, if_false, state1, cfgT]
    exact logp_one
  have hloop : proposeLoop cfgT state1.values0 state1.values1 (stepPrime randRej)
      (pivotStoch (stepPrime randRej) state1) randRej.proposals = .found psRej := by
    rw [stepPrime_randRej]
    simp only [pivotStoch, Bool.false_eq_true, if_false, state1, randRej]
    exact loop_rej_T
  have hphi : ¬psRej.phi.countP (fun b => b) = 0 := by simp [psRej]
  have hsome : cfgT.logp psRej.stoch.value = some (-10) := by
    simp only [cfgT, psRej]
    exact logp_four
  have htest : Real.log randRej.acceptDraw > -10 - 0 + psRej.hastings := by
    simp only [randRej, psRej]
    have := log_half_gt
    linarith
  rw [step_reject_test cfgT randRej state1 psRej 0 (-10) hL hloop hphi hsome htest,
    stepPrime_randRej]
  simp [finishStep, revert, state1, psRej, finalRej]

lemma step_rejPN_eval : step cfgPropNone randRej state1 = .ok finalRej := by
  have hL : cfgPropNone.logp (pivotStoch (stepPrime randRej) state1).value = some 0 := by
    rw [stepPrime_randRej]
    simp only [pivotStoch, Bool.false_eq_true, if_false, state1, cfgPropNone]
    rw [if_neg]
    intro h
    simp only [List.cons.injEq, and_true] at h
    norm_num at h
  have hloop : proposeLoop cfgPropNone state1.values0 state1.values1 (stepPrime randRej)
      (pivotStoch (stepPrime randRej) state1) randRej.proposals = .found psRej := by
    rw [stepPrime_randRej]
    simp only [pivotStoch, Bool.false_eq_true, if_false, state1, randRej]
    exact loop_rej_PN
  have hphi : ¬psRej.phi.countP (fun b => b) = 0 := by simp [psRej]
  have hnone : cfgPropNone.logp psRej.stoch.value = none := by
    simp [cfgPropNone, psRej]
  rw [step_reject_propnone cfgPropNone randRej state1 psRej 0 hL hloop hphi hnone,
    stepPrime_randRej]
  simp [finishStep, revert, state1, psRej, finalRej]

lemma step_none_eval : step cfgNone randRej state1 = .errZeroProb := by
  unfold step
  simp [cfgNone]

lemma blow_sq_cancel (σ r : ℝ) :
    ∀ (phi : List Bool) (x xp : List ℝ), phi.length = x.length →
      x.length = xp.length →
      (sqDiffs (blowMove σ r phi x) xp).sum - (sqDiffs x xp).sum
        = (maskedSqDiffs phi (blowMove σ r phi x) xp).sum
          - (maskedSqDiffs phi x xp).sum := by
  intro phi
  induction phi with
  | nil =>
    intro x xp h1 _
    cases x with
    | nil => simp [blowMove, sqDiffs, maskedSqDiffs]
    | cons a as => simp at h1
  | cons b phi ih =>
    intro x xp h1 h2
    cases x with
    | nil => simp at h1
    | cons a as =>
      cases xp with
      | nil => simp at h2
      | cons c cs =>
        have h1' : phi.length = as.length := by simpa using h1
        have h2' : as.length = cs.length := by simpa using h2
        have hrec := ih as cs h1' h2'
        cases b
        · simp only [blowMove, sqDiffs, maskedSqDiffs, List.sum_cons,
            Bool.false_eq_true, if_false, zero_mul, mul_zero, zero_add, add_zero]
          linarith
        · simp only [blowMove, sqDiffs, maskedSqDiffs, List.sum_cons,
            if_true, one_mul]
          linarith

lemma hop_sq_cancel (σ r : ℝ) :
    ∀ (phi : List Bool) (x xp : List ℝ), phi.length = x.length →
      x.length = xp.length →
      (sqDiffs (hopMove σ r phi x xp) xp).sum - (sqDiffs x xp).sum
        = (maskedSqDiffs phi (hopMove σ r phi x xp) xp).sum
          - (maskedSqDiffs phi x xp).sum := by
  intro phi
  induction phi with
  | nil =>
    intro x xp h1 _
    cases x with
    | nil => simp [hopMove, sqDiffs, maskedSqDiffs]
    | cons a as => simp at h1
  | cons b phi ih =>
    intro x xp h1 h2
    cases x with
    | nil => simp at h1
    | cons a as =>
      cases xp with
      | nil => simp at h2
      | cons c cs =>
        have h1' : phi.length = as.length := by simpa using h1
        have h2' : as.length = cs.length := by simpa using h2
        have hrec := ih as cs h1' h2'
        cases b
        · simp only [hopMove, sqDiffs, maskedSqDiffs, List.sum_cons,
            Bool.false_eq_true, if_false, mul_zero, mul_one, zero_add, add_zero]
          linarith
        · simp only [hopMove, sqDiffs, maskedSqDiffs, List.sum_cons,
            if_true, mul_one, mul_zero, add_zero]
          have hh : (c + σ * r - c) ^ 2 = (σ * r) ^ 2 := by ring
          linarith

lemma loop_found_support (cfg : Config) (v0 v1 : List ℝ) (prime : Bool) :
    ∀ (rands : List PRand) (st : Stoch) (ps : PState),
      proposeLoop cfg v0 v1 prime st rands = .found ps →
      cfg.support ps.stoch.value = true := by
  intro rands
  induction rands with
  | nil => intro st ps h; simp [proposeLoop] at h
  | cons r rest ih =>
    intro st ps h
    simp only [proposeLoop] at h
    rcases hps : proposeStep cfg v0 v1 prime st r with _ | ps1
    · rw [hps] at h; simp at h
    · rw [hps] at h
      by_cases hs : cfg.support ps1.stoch.value = true
      · simp only [hs, if_true] at h
        injection h with h
        subst h
        exact hs
      · have hs' : cfg.support ps1.stoch.value = false := by
          revert hs; cases cfg.support ps1.stoch.value <;> simp
        simp only [hs', Bool.false_eq_true, if_false] at h
        exact ih ps1.stoch ps h

lemma loop_never_support (cfg : Config) (v0 v1 : List ℝ) (prime : Bool)
    (hnever : ∀ v, cfg.support v = false) :
    ∀ (rands : List PRand) (st : Stoch),
      (proposeLoop cfg v0 v1 prime st rands).isFound = false := by
  intro rands
  induction rands with
  | nil => intro st; simp [proposeLoop, LoopResult.isFound]
  | cons r rest ih =>
    intro st
    simp only [proposeLoop]
    rcases hps : proposeStep cfg v0 v1 prime st r with _ | ps1
    · simp [LoopResult.isFound]
    · simp only [hnever ps1.stoch.value, Bool.false_eq_true, if_false]
      exact ih ps1.stoch

lemma loop_cons_success (cfg : Config) (v0 v1 : List ℝ) (prime : Bool)
    (st : Stoch) (r : PRand) (rest : List PRand) (ps1 : PState)
    (hps : proposeStep cfg v0 v1 prime st r = some ps1)
    (hs : cfg.support ps1.stoch.value = true) :
    proposeLoop cfg v0 v1 prime st (r :: rest) = .found ps1 := by
  simp only [proposeLoop, hps, hs, if_true]

lemma loop_cons_retry (cfg : Config) (v0 v1 : List ℝ) (prime : Bool)
    (st : Stoch) (r : PRand) (rest : List PRand) (ps1 : PState)
    (hps : proposeStep cfg v0 v1 prime st r = some ps1)
    (hs : cfg.support ps1.stoch.value = false) :
    proposeLoop cfg v0 v1 prime st (r :: rest)
      = proposeLoop cfg v0 v1 prime ps1.stoch rest := by
  simp only [proposeLoop, hps, hs, Bool.false_eq_true, if_false]

lemma kernelIndex_four (w0 w1 w2 w3 u : ℝ) :
    kernelIndex (cumsum [w0, w1, w2, w3]) u
      = ((if w0 < u then 1 else 0) + (if w0 + w1 < u then 1 else 0)
        + (if w0 + w1 + w2 < u then 1 else 0)
        + (if w0 + w1 + w2 + w3 < u then 1 else 0) : ℕ) := by
  simp only [kernelIndex, cumsum, cumsumFrom, List.countP_cons, List.countP_nil,
    decide_eq_true_eq, zero_add]
  ring

lemma hL_PN : cfgPropNone.logp (pivotStoch (stepPrime randRej) state1).value = some 0 := by
  rw [stepPrime_randRej]
  simp only [pivotStoch, Bool.false_eq_true, if_false, state1, cfgPropNone]
  rw [if_neg]
  intro h
  simp only [List.cons.injEq, and_true] at h
  norm_num at h

lemma hloop_PN : proposeLoop cfgPropNone state1.values0 state1.values1 (stepPrime randRej)
    (pivotStoch (stepPrime randRej) state1) randRej.proposals = .found psRej := by
  rw [stepPrime_randRej]
  simp only [pivotStoch, Bool.false_eq_true, if_false, state1, randRej]
  exact loop_rej_PN

lemma hnone_PN : cfgPropNone.logp psRej.stoch.value = none := by
  simp [cfgPropNone, psRej]

lemma kernelIndex_cfg4_walk : kernelIndex (cumsum [1 / 2, 0, 1 / 2, 0]) (1 / 4) = 0 := by
  rw [kernelIndex_four, if_neg (by norm_num), if_neg (by norm_num),
    if_neg (by norm_num), if_neg (by norm_num)]

lemma kernelIndex_cfg4_blow : kernelIndex (cumsum [1 / 2, 0, 1 / 2, 0]) (3 / 4) = 2 := by
  rw [kernelIndex_four, if_pos (by norm_num), if_pos (by norm_num),
    if_neg (by norm_num), if_neg (by norm_num)]

lemma phi_TF : ([(0 : ℝ), 1]).map (fun u => decide (u < (1 / 2 : ℝ))) = [true, false] := by
  simp only [List.map]
  norm_num

lemma phi_FT : ([(1 : ℝ), 0]).map (fun u => decide (u < (1 / 2 : ℝ))) = [false, true] := by
  simp only [List.map]
  norm_num

lemma walk_move_cfg4 : walkMove 3 [true, false] [2, 0] [1, 1] [1, 0] = [5, 0] := by
  simp only [walkMove, walkZ]
  norm_num

lemma mad_cfg4 : maskedAbsDiff [false, true] [1, 1] [2, 0] = [0, 1] := by
  simp only [maskedAbsDiff, Bool.false_eq_true, if_false, if_true, zero_mul,
    one_mul]
  norm_num

lemma npMax_01 : npMax [(0 : ℝ), 1] = 1 := by
  simp only [npMax, List.foldr]
  norm_num [max_def]

lemma blow_move_cfg4 : blowMove 1 1 [false, true] [2, 0] = [2, 1] := by
  simp only [blowMove, Bool.false_eq_true, if_false, if_true]
  norm_num

lemma sup_cfg4_refuse : cfg4.support [(5 : ℝ), 0] = false := by
  simp [cfg4]

lemma sup_cfg4_accept : cfg4.support [(2 : ℝ), 1] = true := by
  simp only [cfg4]
  rw [if_neg]
  intro h
  simp only [List.cons.injEq, and_true] at h
  norm_num at h

lemma proposeStep_prW :
    proposeStep cfg4 [2, 0] [1, 1] false ⟨[2, 0], [2, 0]⟩ prW =
      some ⟨⟨[5, 0], [2, 0]⟩, 0, [true, false], 0⟩ := by
  simp only [proposeStep, cfg4, prW]
  simp only [Bool.false_eq_true, if_false]
  rw [kernelIndex_cfg4_walk, phi_TF, walk_move_cfg4]
  simp [setValue]

lemma proposeStep_prB :
    proposeStep cfg4 [2, 0] [1, 1] false ⟨[5, 0], [2, 0]⟩ prB = some ps4 := by
  simp only [proposeStep, cfg4, prB]
  simp only [Bool.false_eq_true, if_false, List.headI]
  rw [kernelIndex_cfg4_blow, phi_FT, mad_cfg4, npMax_01, blow_move_cfg4]
  simp [setValue, ps4]

lemma loop_cfg4 :
    proposeLoop cfg4 [2, 0] [1, 1] false ⟨[2, 0], [2, 0]⟩ [prW, prB] =
      .found ps4 := by
  simp only [proposeLoop, proposeStep_prW, proposeStep_prB]
  simp only [sup_cfg4_refuse, Bool.false_eq_true, if_false]
  simp only [ps4, sup_cfg4_accept, if_true]

lemma ps4_hastings : ps4.hastings = -8 := by
  simp only [ps4, blowHastings, gfun, sqDiffs, List.sum_cons, List.sum_nil,
    List.countP_cons, List.countP_nil]
  norm_num [Real.log_one]

lemma gSpec_stale :
    gSpec [false, true] [2, 1] [1, 1] 1 - gSpec [false, true] [5, 0] [1, 1] 1
      = -(1 / 2) := by
  simp only [gSpec, maskedSqDiffs, Bool.false_eq_true, if_false, if_true,
    List.sum_cons, List.sum_nil, List.countP_cons, List.countP_nil]
  norm_num [Real.log_one]

lemma gSpec_active :
    gSpec [false, true] [2, 1] [1, 1] 1 - gSpec [false, true] [2, 0] [1, 1] 1
      = -(1 / 2) := by
  simp only [gSpec, maskedSqDiffs, Bool.false_eq_true, if_false, if_true,
    List.sum_cons, List.sum_nil, List.countP_cons, List.countP_nil]
  norm_num [Real.log_one]

/-- C1: `reject()`'s contract is to restore the last-accepted value, but
`stochastic.revert()` only undoes the most recent `setValue`; when the
support-retry loop issued more than one `setValue` before the evaluated
proposal, a rejected step restores - and then commits - the previous
support-refused proposal instead of the last-accepted value.  Concretely:
from primary point `[1]`, the first walk proposal `[1/4]` is refused by
the support, the retry proposes `[4]`, the acceptance test fails, and the
step returns with the target (and the committed primary point) at `[1/4]`,
not the last-accepted `[1]`. -/
theorem C1_reject_revert_eval :
    step cexCfg rand1 state1 = .ok final1
    ∧ final1.rejected 0 = state1.rejected 0 + 1
    ∧ final1.values0 = [(1 : ℝ) / 4]
    ∧ final1.stoch.value = [(1 : ℝ) / 4]
    ∧ state1.stoch.value = [(1 : ℝ)]
    ∧ cexSupport [(1 : ℝ) / 4] = false
    ∧ [(1 : ℝ) / 4] ≠ [(1 : ℝ)] := by
  refine ⟨step_rand1_eval, by simp [final1, state1, bump], by simp [final1],
    by simp [final1], by simp [state1], sup_quarter, ?_⟩
  intro h
  simp only [List.cons.injEq, and_true] at h
  norm_num at h

/-- C2 counterexample: for the nonnegative weight vector
`[1/10, 1/10, 1/10, 1/10]` and the uniform draw `1/2` in `[0, 1)`, the
selection `sum(cum_probs < draw)` is 4, not a valid kernel index in
`{0, 1, 2, 3}` (so `self.kernels[4]` raises `IndexError` rather than
selecting the last kernel). -/
theorem C2_kernel_index_out_of_range :
    (0 : ℝ) ≤ 1 / 10 ∧ (0 : ℝ) ≤ 1 / 2 ∧ (1 / 2 : ℝ) < 1
    ∧ kernelIndex (cumsum [1 / 10, 1 / 10, 1 / 10, 1 / 10]) (1 / 2) = 4
    ∧ ¬(4 : ℕ) < 4 := by
  refine ⟨by norm_num, by norm_num, by norm_num, ?_, by norm_num⟩
  rw [kernelIndex_four, if_pos (by norm_num), if_pos (by norm_num),
    if_pos (by norm_num), if_pos (by norm_num)]

/-- C2 amended: kernel selection counts the cumulative bounds strictly
below the draw; this is the first index whose cumulative bound is at
least the draw, and is a valid index in `{0, 1, 2, 3}` whenever the draw
does not exceed the total weight (in particular for weights summing to at
least 1, since the draw is below 1); when every cumulative bound is below
the draw the result is the out-of-range index 4 (a fatal `IndexError`),
not the last kernel. -/
theorem C2_kernel_selection_amended (w0 w1 w2 w3 u : ℝ)
    (h0 : 0 ≤ w0) (h1 : 0 ≤ w1) (h2 : 0 ≤ w2) (h3 : 0 ≤ w3) :
    (u ≤ w0 → kernelIndex (cumsum [w0, w1, w2, w3]) u = 0)
    ∧ (w0 < u → u ≤ w0 + w1 → kernelIndex (cumsum [w0, w1, w2, w3]) u = 1)
    ∧ (w0 + w1 < u → u ≤ w0 + w1 + w2 →
        kernelIndex (cumsum [w0, w1, w2, w3]) u = 2)
    ∧ (w0 + w1 + w2 < u → u ≤ w0 + w1 + w2 + w3 →
        kernelIndex (cumsum [w0, w1, w2, w3]) u = 3)
    ∧ (w0 + w1 + w2 + w3 < u → kernelIndex (cumsum [w0, w1, w2, w3]) u = 4) := by
  refine ⟨?_, ?_, ?_, ?_, ?_⟩
  · intro hu
    rw [kernelIndex_four, if_neg (not_lt.mpr (by linarith)),
      if_neg (not_lt.mpr (by linarith)), if_neg (not_lt.mpr (by linarith)),
      if_neg (not_lt.mpr (by linarith))]
  · intro hlo hu
    rw [kernelIndex_four, if_pos hlo, if_neg (not_lt.mpr (by linarith)),
      if_neg (not_lt.mpr (by linarith)), if_neg (not_lt.mpr (by linarith))]
  · intro hlo hu
    rw [kernelIndex_four, if_pos (by linarith), if_pos hlo,
      if_neg (not_lt.mpr (by linarith)), if_neg (not_lt.mpr (by linarith))]
  · intro hlo hu
    rw [kernelIndex_four, if_pos (by linarith), if_pos (by linarith),
      if_pos hlo, if_neg (not_lt.mpr (by linarith))]
  · intro hlo
    rw [kernelIndex_four, if_pos (by linarith), if_pos (by linarith),
      if_pos (by linarith), if_pos hlo]

/-- C2 witness: with the default weights and draw 0.3 the first kernel is
selected. -/
theorem C2_kernel_selection_witness :
    kernelIndex (cumsum [0.4918, 0.4918, 0.0082, 0.0082]) 0.3 = 0 :=
  (C2_kernel_selection_amended 0.4918 0.4918 0.0082 0.0082 0.3 (by norm_num)
    (by norm_num) (by norm_num) (by norm_num)).1 (by norm_num)

/-- C3: the blow kernel draws a single scalar standard normal
(`rnormal()` without a size argument) shared by every masked coordinate:
with mask `[true, true]`, `x = [0, 0]`, `xp = [1, 2]` (so `sigma = 2`)
and normal stream `[1, -1]`, the code produces `[2, 2]` (both coordinates
perturbed by the same draw), while the spec's vectorized per-coordinate
draws produce `[2, -2]`. -/
theorem C3_blow_scalar_draw_eval :
    npMax (maskedAbsDiff [true, true] [1, 2] [0, 0]) = 2
    ∧ blowMove 2 1 [true, true] [0, 0] = [2, 2]
    ∧ blowSpecMove 2 [true, true] [0, 0] [1, -1] = [2, -2]
    ∧ ([2, 2] : List ℝ) ≠ [2, -2] := by
  refine ⟨?_, ?_, ?_, ?_⟩
  · simp only [maskedAbsDiff, npMax, List.foldr]
    rw [abs_of_nonneg (by norm_num : (0 : ℝ) ≤ 1 - 0),
      abs_of_nonneg (by norm_num : (0 : ℝ) ≤ 2 - 0)]
    norm_num [max_def]
  · simp only [blowMove, if_true]
    norm_num
  · simp only [blowSpecMove, if_true]
    norm_num
  · intro h
    simp only [List.cons.injEq, and_true] at h
    norm_num at h

/-- C4 counterexample: after a support-refused walk proposal (mask
`[true, false]`, `[2, 0]` moved to the refused `[5, 0]`), the retry runs
blow with mask `[false, true]` while `self.stochastic.value` is the
stale refused proposal `[5, 0]`, not the active point `[2, 0]`; the
hastings factor the code stores there (the all-coordinate `_g`
difference against the stale value) is -8, while the claimed masked-only
`g` difference is -(1/2) - whether its `x_old` is read as the stale
stochastic value or as the active point - so the unmasked quadratic
terms do not cancel and the claimed equality fails. -/
theorem C4_hastings_stale_cex :
    proposeLoop cfg4 [2, 0] [1, 1] false ⟨[2, 0], [2, 0]⟩ [prW, prB] =
      .found ps4
    ∧ ps4.hastings = -8
    ∧ gSpec [false, true] [2, 1] [1, 1] 1 - gSpec [false, true] [5, 0] [1, 1] 1
      = -(1 / 2)
    ∧ gSpec [false, true] [2, 1] [1, 1] 1 - gSpec [false, true] [2, 0] [1, 1] 1
      = -(1 / 2)
    ∧ (-8 : ℝ) ≠ -(1 / 2) :=
  ⟨loop_cfg4, ps4_hastings, gSpec_stale, gSpec_active, by norm_num⟩

/-- C4 amended: for the blow and hop kernels, *when the stochastic's
value `sv` at kernel entry equals the active point `x`* - as on the
first proposal of a step, before any support retry has overwritten the
stochastic - the hastings factor `_g(x_new, xp, sigma) - _g(x_old, xp,
sigma)` equals the same difference of the spec's `g` whose quadratic
term is summed over the masked coordinates only (the unmasked quadratic
terms of `_g`'s all-coordinate sum cancel because the kernels leave
unmasked coordinates unchanged); after a support retry `sv` is the
previous refused proposal and the equality fails. -/
theorem C4_hastings_masked (phi : List Bool) (x xp sv : List ℝ) (σ r : ℝ)
    (hsv : sv = x) (hlen1 : phi.length = x.length)
    (hlen2 : x.length = xp.length) :
    blowHastings phi (blowMove σ r phi x) sv xp σ
      = gSpec phi (blowMove σ r phi x) xp σ - gSpec phi sv xp σ
    ∧ blowHastings phi (hopMove σ r phi x xp) sv xp σ
      = gSpec phi (hopMove σ r phi x xp) xp σ - gSpec phi sv xp σ := by
  subst hsv
  constructor
  · have key := blow_sq_cancel σ r phi sv xp hlen1 hlen2
    simp only [blowHastings, gfun, gSpec]
    linear_combination (0.5 / σ ^ 2) * key
  · have key := hop_sq_cancel σ r phi sv xp hlen1 hlen2
    simp only [blowHastings, gfun, gSpec]
    linear_combination (0.5 / σ ^ 2) * key

/-- C4 witness at mask `[true, false]`, `x = [1, 2]`, `xp = [0, 0]`,
`sigma = 2`, draw 1. -/
theorem C4_hastings_masked_witness :
    blowHastings [true, false] (blowMove 2 1 [true, false] [1, 2]) [1, 2] [0, 0] 2
      = gSpec [true, false] (blowMove 2 1 [true, false] [1, 2]) [0, 0] 2
        - gSpec [true, false] [1, 2] [0, 0] 2
    ∧ blowHastings [true, false] (hopMove 2 1 [true, false] [1, 2] [0, 0]) [1, 2] [0, 0] 2
      = gSpec [true, false] (hopMove 2 1 [true, false] [1, 2] [0, 0]) [0, 0] 2
        - gSpec [true, false] [1, 2] [0, 0] 2 :=
  C4_hastings_masked [true, false] [1, 2] [0, 0] [1, 2] 2 1 rfl rfl rfl

/-- C5: whenever `step()` returns, the stochastic's visible value equals
the primary point `values[0]` of the returned state, on every
accept/reject/zero-selection path and for either pivot. -/
theorem C5_visible_is_primary (cfg : Config) (r : StepRand) (s s' : SState)
    (h : step cfg r s = .ok s') : s'.stoch.value = s'.values0 := by
  obtain ⟨ps, a, hs⟩ := step_ok_shape cfg r s s' h
  rw [hs]
  exact finishStep_stoch_value s (stepPrime r) ps a

/-- C5 witness on the accepted single-proposal step. -/
theorem C5_visible_is_primary_witness : finalAcc.stoch.value = finalAcc.values0 :=
  C5_visible_is_primary cfgT randAcc state1 finalAcc step_acc_eval

/-- C6: every returning `step()` bumps exactly one counter entry by one -
`accepted` at the chosen kernel index on acceptance, `rejected` at the
chosen kernel index on any rejection (zero-selection included) - and
leaves the other counter array unchanged (`bump` changes only the chosen
index). -/
theorem C6_counter_increment (cfg : Config) (r : StepRand) (s s' : SState)
    (h : step cfg r s = .ok s') :
    (s'.accepted = bump s.accepted s'.currentKernel ∧ s'.rejected = s.rejected)
    ∨ (s'.accepted = s.accepted
        ∧ s'.rejected = bump s.rejected s'.currentKernel) := by
  obtain ⟨ps, a, hs⟩ := step_ok_shape cfg r s s' h
  subst hs
  rw [finishStep_currentKernel]
  cases a
  · exact Or.inr ⟨finishStep_accepted_false s (stepPrime r) ps,
      finishStep_rejected_false s (stepPrime r) ps⟩
  · exact Or.inl ⟨finishStep_accepted_true s (stepPrime r) ps,
      finishStep_rejected_true s (stepPrime r) ps⟩

/-- C6 witness on the accepted single-proposal step. -/
theorem C6_counter_increment_witness :
    (finalAcc.accepted = bump state1.accepted finalAcc.currentKernel
      ∧ finalAcc.rejected = state1.rejected)
    ∨ (finalAcc.accepted = state1.accepted
        ∧ finalAcc.rejected = bump state1.rejected finalAcc.currentKernel) :=
  C6_counter_increment cfgT randAcc state1 finalAcc step_acc_eval

/-- C7: the zero-selection path does increment `rejected` at the chosen
kernel, commit the active point and return before evaluating the proposed
log-probability, but it restores the value held before the most recent
`setValue`, which after a support retry is the previous refused proposal,
not the pre-step live value: from primary `[1]`, proposal `[1/4]` is
refused by the support, the retry draws an all-false mask leaving the
value at `[1]`, and the zero-selection rejection reverts to - and
commits - `[1/4]`. -/
theorem C7_zero_mask_eval :
    step cexCfg rand7 state1 = .ok final7
    ∧ final7.phi.countP (fun b => b) = 0
    ∧ final7.rejected 0 = state1.rejected 0 + 1
    ∧ final7.values0 = [(1 : ℝ) / 4]
    ∧ state1.stoch.value = [(1 : ℝ)]
    ∧ [(1 : ℝ) / 4] ≠ [(1 : ℝ)] := by
  refine ⟨step_rand7_eval, by simp [final7], by simp [final7, state1, bump],
    by simp [final7], by simp [state1], ?_⟩
  intro h
  simp only [List.cons.injEq, and_true] at h
  norm_num at h

/-- C8 counterexample: the pre-proposal log-probability evaluation (line
307) sits outside the `try`, so a `ZeroProbability` raised there escapes
`step()` instead of degrading to a rejection: with a log-probability that
always raises, `step` ends in the escaped-exception outcome. -/
theorem C8_initial_zeroprob_escapes :
    cfgNone.logp (pivotStoch (stepPrime randRej) state1).value = none
    ∧ step cfgNone randRej state1 = .errZeroProb :=
  ⟨rfl, step_none_eval⟩

/-- C8 amended: a `ZeroProbability` raised for the proposed point is
caught and degrades to a rejection (the step returns normally with the
chosen kernel's `rejected` entry bumped), but one raised while evaluating
the current (pivot) point's log-probability before proposing escapes
`step()` as a fatal error. -/
theorem C8_zeroprob_amended (cfg cfg2 : Config) (r : StepRand) (s : SState)
    (ps : PState) (L0 : ℝ)
    (hL : cfg.logp (pivotStoch (stepPrime r) s).value = some L0)
    (hloop : proposeLoop cfg s.values0 s.values1 (stepPrime r)
      (pivotStoch (stepPrime r) s) r.proposals = .found ps)
    (hphi : ¬ps.phi.countP (fun b => b) = 0)
    (hnone : cfg.logp ps.stoch.value = none)
    (hL2 : cfg2.logp (pivotStoch (stepPrime r) s).value = none) :
    step cfg r s = .ok (finishStep s (stepPrime r) ps false)
    ∧ (finishStep s (stepPrime r) ps false).rejected = bump s.rejected ps.kernel
    ∧ step cfg2 r s = .errZeroProb := by
  refine ⟨step_reject_propnone cfg r s ps L0 hL hloop hphi hnone,
    finishStep_rejected_false s (stepPrime r) ps, ?_⟩
  unfold step
  rw [hL2]

/-- C8 witness: the proposed-point case at `cfgPropNone` and the
initial-evaluation case at `cfgNone`. -/
theorem C8_zeroprob_amended_witness :
    step cfgPropNone randRej state1
      = .ok (finishStep state1 (stepPrime randRej) psRej false)
    ∧ (finishStep state1 (stepPrime randRej) psRej false).rejected
      = bump state1.rejected psRej.kernel
    ∧ step cfgNone randRej state1 = .errZeroProb :=
  C8_zeroprob_amended cfgPropNone cfgNone randRej state1 psRej 0 hL_PN hloop_PN
    (by simp [psRej]) hnone_PN rfl

/-- C9: the support-retry loop returns exactly at a proposal satisfying
the support predicate (any returned proposal satisfies it; a predicate
refusing every point means no stream of draws makes the loop return, the
unbounded loop never terminating), and each iteration re-selects kernel
and mask afresh from its own draws: a satisfying head proposal is
returned at once, a refused one recurses on the remaining fresh draws
with only the stochastic carried over. -/
theorem C9_retry_loop (cfg1 cfg2 cfg3 : Config) (v0 v1 : List ℝ) (prime : Bool)
    (rands : List PRand) (st st2 st3 : Stoch) (ps ps1 : PState) (r : PRand)
    (rest : List PRand)
    (h1 : proposeLoop cfg1 v0 v1 prime st rands = .found ps)
    (h2 : ∀ v, cfg2.support v = false)
    (h3 : proposeStep cfg3 v0 v1 prime st3 r = some ps1) :
    cfg1.support ps.stoch.value = true
    ∧ (proposeLoop cfg2 v0 v1 prime st2 rands).isFound = false
    ∧ (cfg3.support ps1.stoch.value = true →
        proposeLoop cfg3 v0 v1 prime st3 (r :: rest) = .found ps1)
    ∧ (cfg3.support ps1.stoch.value = false →
        proposeLoop cfg3 v0 v1 prime st3 (r :: rest)
          = proposeLoop cfg3 v0 v1 prime ps1.stoch rest) :=
  ⟨loop_found_support cfg1 v0 v1 prime rands st ps h1,
    loop_never_support cfg2 v0 v1 prime h2 rands st2,
    fun hs => loop_cons_success cfg3 v0 v1 prime st3 r rest ps1 h3 hs,
    fun hs => loop_cons_retry cfg3 v0 v1 prime st3 r rest ps1 h3 hs⟩

/-- C9 witness: a found proposal satisfying the support, a refuse-all
support never returning, an immediately satisfying head, and a refused
head recursing on the tail. -/
theorem C9_retry_loop_witness :
    cfgT.support psStay.stoch.value = true
    ∧ (proposeLoop cfgF [1] [0] false ⟨[1], [1]⟩ [prStay]).isFound = false
    ∧ proposeLoop cfgT [1] [0] false ⟨[1], [1]⟩ (prStay :: [])
      = .found psStay
    ∧ proposeLoop cexCfg [1] [0] false ⟨[1], [1]⟩ (pr0 :: [pr1])
      = proposeLoop cexCfg [1] [0] false
          (PState.stoch ⟨⟨[1 / 4], [1]⟩, 0, [true], 0⟩) [pr1] := by
  have T1 := C9_retry_loop cfgT cfgF cfgT [1] [0] false [prStay] ⟨[1], [1]⟩
    ⟨[1], [1]⟩ ⟨[1], [1]⟩ psStay psStay prStay [] loop_stay_T (fun _ => rfl)
    proposeStep_prStay_T
  have T2 := C9_retry_loop cexCfg cfgF cexCfg [1] [0] false [pr0, pr1]
    ⟨[1], [1]⟩ ⟨[1], [1]⟩ ⟨[1], [1]⟩ ps1 ⟨⟨[1 / 4], [1]⟩, 0, [true], 0⟩ pr0
    [pr1] loop_rand1 (fun _ => rfl) proposeStep_pr0
  exact ⟨T1.1, T1.2.1, T1.2.2.1 rfl, T2.2.2.2 (by simp only [cexCfg]; exact sup_quarter)⟩

/-- C10: reading the `n1` property of any constructed sampler raises
(`__init__` never assigns the backing `_n1`), assigning to it raises (its
setter calls the undefined `_calc_p` after storing `_n1`), and either way
the coordinate-selection probability `p` is untouched, so `p` cannot be
retuned through `n1` after construction. -/
theorem C10_n1_property (len n1arg : ℕ) (v : ℝ) :
    n1Get (twalkInit len n1arg) = .error "AttributeError: _n1"
    ∧ (n1Set (twalkInit len n1arg) v).2 = .error "AttributeError: _calc_p"
    ∧ (n1Set (twalkInit len n1arg) v).1.p = (twalkInit len n1arg).p := by
  refine ⟨rfl, ?_, ?_⟩
  · simp only [n1Set]
    rw [if_neg (by decide)]
  · simp only [n1Set]
    rw [if_neg (by decide)]

end TWalkModel
